import Mathlib

/-!
Shallow embedding of the capture-session reactor of nethogs
(src/src/main.cpp) and proofs about its specified behaviour.

Environment effects (the result of the select call, the wall clock, the
dispatch return values, the capability bits of the binary) are passed in
as explicit arguments; logging and teardown side effects are returned as
event values.
-/

namespace Nethogs

/-! ## Refresh timer (main.cpp lines 305-313)

    time_t const now = ::time(NULL);
    if (last_refresh_time + refreshdelay <= now) {
      last_refresh_time = now; ... do_refresh();
    }

The step returns (fired, new last_refresh_time). -/

def refreshStep (last period now : Int) : Bool × Int :=
  if last + period ≤ now then (true, now) else (false, last)

/-- The times at which the refresh fires, over a sequence of observed
clock values, starting from a given last_refresh_time. -/
def refreshFires (last period : Int) : List Int → List Int
  | [] => []
  | now :: rest =>
    if last + period ≤ now then now :: refreshFires now period rest
    else refreshFires last period rest

/-! ## Shutdown trigger (main.cpp lines 59-65, quit_cb)

    void quit_cb(int) {
      if (self_pipe.second != -1) { write(self_pipe.second, "x", 1); }
      else { exit(0); }
    }
-/

/-- The single observable action performed by the signal handler. -/
inductive QuitAction where
  | writeByte (fd : Int) (b : Char) (len : Nat)
  | exitProcess (code : Nat)
deriving DecidableEq

def quit_cb (selfPipeSnd : Int) : QuitAction :=
  if selfPipeSnd ≠ -1 then .writeByte selfPipeSnd 'x' 1 else .exitProcess 0

/-! ## Idle wait (main.cpp lines 98-119, wait_for_next_trigger)

In multiplexed mode the fd set is rebuilt from pc_loop_fd_list and select
is called with timeout {refreshdelay, 0}; on success the self-pipe read
end is tested with FD_ISSET and, when readable, the function returns
false (shutdown observed).  In fallback mode the function sleeps
usleep(1000) and returns true.  The environment is modelled by `ready`
(the descriptors readable during the wait) and `selectErr` (select
returned -1). -/

structure WaitOutcome where
  ret : Bool
  usleepMicros : Nat
deriving DecidableEq

def wait_for_next_trigger (useSelect : Bool) (fdList : List Int)
    (selfPipeFst : Int) (ready : List Int) (selectErr : Bool) : WaitOutcome :=
  if useSelect then
    if ¬selectErr ∧ selfPipeFst ∈ fdList ∧ selfPipeFst ∈ ready then
      ⟨false, 0⟩
    else
      ⟨true, 0⟩
  else
    ⟨true, 1000⟩

/-! ## Device-opening loop (main.cpp lines 225-279)

Per device: getLocal failure is fatal (forceExit); dp_open_live failure
is logged and counted; on success the four callbacks are installed, a
setnonblock failure is only logged, the session is prepended to the
handles chain, and, while pc_loop_use_select still holds, the selectable
fd is either registered or, when unavailable, pc_loop_use_select is
cleared together with pc_loop_fd_list. -/

/-- One monitored device together with the outcomes the environment gives
it: whether getLocal succeeds, whether dp_open_live succeeds, the result
of pcap_get_selectable_fd (none models -1), and whether dp_setnonblock
succeeds. -/
structure Device where
  name : String
  getLocalOk : Bool
  openOk : Bool
  selectableFd : Option Int
  setnonblockOk : Bool
deriving DecidableEq

inductive LogEvent where
  | nonblockFail
  | selectableFdFail (name : String)
  | openFail (name : String)
deriving DecidableEq

inductive FatalError where
  | noDevices
  | binaryNotFound
  | capsMissing
  | pipeFailed
  | getifaddrsFailed
  | allDevicesFailed
deriving DecidableEq

/-- The mutable state threaded through startup: device counters, the
handles ownership chain (device names, prepended), the select flag, the
registered fd list, the devices on which dp_open_live was called, and
the log lines emitted. -/
structure LoopState where
  nbDevices : Nat
  nbFailed : Nat
  handles : List String
  useSelect : Bool
  fdList : List Int
  attempts : List String
  logs : List LogEvent
deriving DecidableEq

def openDevicesStep (st : LoopState) (d : Device) : LoopState × Option FatalError :=
  let st := { st with nbDevices := st.nbDevices + 1 }
  if ¬ d.getLocalOk then
    (st, some .getifaddrsFailed)
  else
    let st := { st with attempts := st.attempts ++ [d.name] }
    if d.openOk then
      let st := if d.setnonblockOk then st
                else { st with logs := st.logs ++ [.nonblockFail] }
      let st := { st with handles := d.name :: st.handles }
      if st.useSelect then
        match d.selectableFd with
        | some fd => ({ st with fdList := st.fdList ++ [fd] }, none)
        | none =>
          ({ st with useSelect := false, fdList := [],
                     logs := st.logs ++ [.selectableFdFail d.name] }, none)
      else
        (st, none)
    else
      ({ st with nbFailed := st.nbFailed + 1,
                 logs := st.logs ++ [.openFail d.name] }, none)

def openDevices (st : LoopState) : List Device → LoopState × Option FatalError
  | [] => (st, none)
  | d :: rest =>
    match openDevicesStep st d with
    | (st1, none) => openDevices st1 rest
    | (st1, some e) => (st1, some e)

/-! ## Privilege guard (main.cpp lines 195-212) -/

def CAP_NET_ADMIN : Nat := 12
def CAP_NET_RAW : Nat := 13

/-- The startup environment: effective uid, whether readlink on
/proc/self/exe succeeds, the caps[1] word read from the binary
capability attribute, and whether the self-pipe creation succeeds. -/
structure Config where
  euid : Nat
  readlinkOk : Bool
  caps1 : Nat
  pipeOk : Bool
  pipeReadFd : Int
deriving DecidableEq

def privilegeCheck (c : Config) : Option FatalError :=
  if c.euid ≠ 0 then
    if ¬ c.readlinkOk then some .binaryNotFound
    else if (c.caps1 >>> CAP_NET_ADMIN) % 2 ≠ 1 ∨ (c.caps1 >>> CAP_NET_RAW) % 2 ≠ 1 then
      some .capsMissing
    else none
  else none

/-- forceExit(success, ...) exits with EXIT_SUCCESS or EXIT_FAILURE. -/
def forceExitCode (success : Bool) : Nat := if success then 0 else 1

/-- Every fatal startup condition goes through forceExit(false, ...). -/
def fatalExitCode : Nat := forceExitCode false

def emptyLoopState : LoopState :=
  { nbDevices := 0, nbFailed := 0, handles := [], useSelect := true,
    fdList := [], attempts := [], logs := [] }

/-- State right after the self-pipe read end is registered
(main.cpp line 220). -/
def initLoopState (pipeReadFd : Int) : LoopState :=
  { emptyLoopState with fdList := [pipeReadFd] }

/-- The startup sequence of main (lines 186-279): device list present,
privilege guard, self-pipe creation, then the device-opening loop and
the all-devices-failed check.  Returns the state reached together with
the fatal error, if any, that terminated startup. -/
def mainStartup (c : Config) (ds : List Device) : LoopState × Option FatalError :=
  if ds.isEmpty then (emptyLoopState, some .noDevices)
  else
    match privilegeCheck c with
    | some e => (emptyLoopState, some e)
    | none =>
      if ¬ c.pipeOk then (emptyLoopState, some .pipeFailed)
      else
        match openDevices (initLoopState c.pipeReadFd) ds with
        | (st, some e) => (st, some e)
        | (st, none) =>
          if st.nbDevices = st.nbFailed then (st, some .allDevicesFailed)
          else (st, none)

/-! ## One reactor-loop iteration (main.cpp lines 286-320)

Inputs from the environment: the dp_dispatch return value for each
session in the chain, the current wall clock, and the select outcome.
Source:  retval == -1 and retval < 0 are logged, retval > 0 marks the
iteration productive; then the refresh check; then, only when no packets
were read, wait_for_next_trigger, whose false return breaks the loop. -/

structure IterResult where
  packetsRead : Bool
  dispatchLogs : Nat
  refreshFired : Bool
  lastRefreshAfter : Int
  waitCalled : Bool
  breaks : Bool
deriving DecidableEq

def loopIteration (useSelect : Bool) (fdList : List Int) (selfPipeFst : Int)
    (refreshdelay last : Int) (retvals : List Int) (now : Int)
    (ready : List Int) (selectErr : Bool) : IterResult :=
  let pr := retvals.any (fun r => decide (0 < r))
  let logs := (retvals.filter (fun r => decide (r < 0))).length
  let rf := refreshStep last refreshdelay now
  if pr then
    ⟨pr, logs, rf.1, rf.2, false, false⟩
  else
    let w := wait_for_next_trigger useSelect fdList selfPipeFst ready selectErr
    ⟨pr, logs, rf.1, rf.2, true, !w.ret⟩

/-! ## Teardown (main.cpp lines 121-131, clean_up)

    void clean_up() {
      for (...) close(*it);   // pc_loop_fd_list
      procclean();
      if ((!tracemode) && (!DEBUG)) exit_ui();
    }

The handles chain is in scope but clean_up does not touch it. -/

inductive CleanupEvent where
  | closeFd (fd : Int)
  | releaseSession (name : String)
  | procclean
  | exitUi
deriving DecidableEq

def clean_up (fdList : List Int) (handles : List String)
    (tracemode debug : Bool) : List CleanupEvent :=
  fdList.map CleanupEvent.closeFd ++ [CleanupEvent.procclean] ++
  (if ¬tracemode ∧ ¬debug then [CleanupEvent.exitUi] else [])

/-! ## Derived observation helpers -/

/-- Device names carrying an open-failure skip notice, in log order. -/
def openFailLogs (logs : List LogEvent) : List String :=
  logs.filterMap (fun e => match e with | .openFail n => some n | _ => none)

/-- Names of the devices whose dp_open_live failed, in device order. -/
def failedNames (ds : List Device) : List String :=
  (ds.filter (fun d => !d.openOk)).map Device.name

/-- Names of the devices whose dp_open_live succeeded, in device order. -/
def openedNames (ds : List Device) : List String :=
  (ds.filter (fun d => d.openOk)).map Device.name

/-! # Theorems -/

/-! ## Helper lemmas about the device-opening fold -/

theorem openDevices_of_useSelect_false (st : LoopState) (ds : List Device)
    (h : st.useSelect = false) :
    (openDevices st ds).1.useSelect = false ∧ (openDevices st ds).1.fdList = st.fdList := by
  induction ds generalizing st with
  | nil => exact ⟨h, rfl⟩
  | cons d rest ih =>
    by_cases hg : d.getLocalOk
    · by_cases ho : d.openOk
      · by_cases hn : d.setnonblockOk
        · simp only [openDevices, openDevicesStep, hg, ho, hn, h,
            not_true_eq_false, if_false, if_true, Bool.false_eq_true]
          exact ih _ rfl
        · simp only [openDevices, openDevicesStep, hg, ho, hn, h,
            not_true_eq_false, if_false, if_true, Bool.false_eq_true]
          exact ih _ rfl
      · simp only [openDevices, openDevicesStep, hg, ho,
          not_true_eq_false, if_false, if_true, Bool.false_eq_true]
        exact ih _ h
    · simp only [openDevices, openDevicesStep, hg, not_false_eq_true, if_true]
      exact ⟨h, rfl⟩

theorem openFailLogs_append (l1 l2 : List LogEvent) :
    openFailLogs (l1 ++ l2) = openFailLogs l1 ++ openFailLogs l2 := by
  simp [openFailLogs]

theorem openDevices_no_fatal (ds : List Device) :
    ∀ st : LoopState, (∀ d ∈ ds, d.getLocalOk = true) →
    (openDevices st ds).2 = none := by
  induction ds with
  | nil => intro st _; rfl
  | cons d rest ih =>
    intro st h
    have hd : d.getLocalOk = true := h d (by simp)
    have hrest : ∀ x ∈ rest, x.getLocalOk = true := fun x hx => h x (by simp [hx])
    by_cases ho : d.openOk <;> by_cases hn : d.setnonblockOk <;>
      by_cases hu : st.useSelect <;> cases hsel : d.selectableFd <;>
      simp [openDevices, openDevicesStep, hd, ho, hn, hu, hsel, ih _ hrest]

theorem openDevices_nbDevices (ds : List Device) :
    ∀ st : LoopState, (∀ d ∈ ds, d.getLocalOk = true) →
    (openDevices st ds).1.nbDevices = st.nbDevices + ds.length := by
  induction ds with
  | nil => intro st _; rfl
  | cons d rest ih =>
    intro st h
    have hd : d.getLocalOk = true := h d (by simp)
    have hrest : ∀ x ∈ rest, x.getLocalOk = true := fun x hx => h x (by simp [hx])
    by_cases ho : d.openOk <;> by_cases hn : d.setnonblockOk <;>
      by_cases hu : st.useSelect <;> cases hsel : d.selectableFd <;>
      simp [openDevices, openDevicesStep, hd, ho, hn, hu, hsel, ih _ hrest] <;> omega

theorem openDevices_nbFailed (ds : List Device) :
    ∀ st : LoopState, (∀ d ∈ ds, d.getLocalOk = true) →
    (openDevices st ds).1.nbFailed
      = st.nbFailed + (ds.filter (fun d => !d.openOk)).length := by
  induction ds with
  | nil => intro st _; rfl
  | cons d rest ih =>
    intro st h
    have hd : d.getLocalOk = true := h d (by simp)
    have hrest : ∀ x ∈ rest, x.getLocalOk = true := fun x hx => h x (by simp [hx])
    by_cases ho : d.openOk <;> by_cases hn : d.setnonblockOk <;>
      by_cases hu : st.useSelect <;> cases hsel : d.selectableFd <;>
      simp [openDevices, openDevicesStep, hd, ho, hn, hu, hsel, ih _ hrest] <;> omega

theorem openDevices_handles (ds : List Device) :
    ∀ st : LoopState, (∀ d ∈ ds, d.getLocalOk = true) →
    (openDevices st ds).1.handles = (openedNames ds).reverse ++ st.handles := by
  induction ds with
  | nil => intro st _; simp [openDevices, openedNames]
  | cons d rest ih =>
    intro st h
    have hd : d.getLocalOk = true := h d (by simp)
    have hrest : ∀ x ∈ rest, x.getLocalOk = true := fun x hx => h x (by simp [hx])
    by_cases ho : d.openOk <;> by_cases hn : d.setnonblockOk <;>
      by_cases hu : st.useSelect <;> cases hsel : d.selectableFd <;>
      simp [openDevices, openDevicesStep, openedNames, hd, ho, hn, hu, hsel,
        ih _ hrest]

theorem openFailLogs_nil : openFailLogs [] = [] := rfl

theorem openFailLogs_cons_open (n : String) (l : List LogEvent) :
    openFailLogs (LogEvent.openFail n :: l) = n :: openFailLogs l := rfl

theorem openFailLogs_cons_nonblock (l : List LogEvent) :
    openFailLogs (LogEvent.nonblockFail :: l) = openFailLogs l := rfl

theorem openFailLogs_cons_selfail (n : String) (l : List LogEvent) :
    openFailLogs (LogEvent.selectableFdFail n :: l) = openFailLogs l := rfl

theorem openDevices_openFailLogs (ds : List Device) :
    ∀ st : LoopState, (∀ d ∈ ds, d.getLocalOk = true) →
    openFailLogs (openDevices st ds).1.logs
      = openFailLogs st.logs ++ failedNames ds := by
  induction ds with
  | nil => intro st _; simp [openDevices, failedNames]
  | cons d rest ih =>
    intro st h
    have hd : d.getLocalOk = true := h d (by simp)
    have hrest : ∀ x ∈ rest, x.getLocalOk = true := fun x hx => h x (by simp [hx])
    by_cases ho : d.openOk <;> by_cases hn : d.setnonblockOk <;>
      by_cases hu : st.useSelect <;> cases hsel : d.selectableFd <;>
      simp [openDevices, openDevicesStep, failedNames, openFailLogs_append,
        openFailLogs_nil, openFailLogs_cons_open, openFailLogs_cons_nonblock,
        openFailLogs_cons_selfail, hd, ho, hn, hu, hsel, ih _ hrest]

theorem refreshFires_head_bound (period : Int) (times : List Int) :
    ∀ (last h : Int), (refreshFires last period times).head? = some h →
    last + period ≤ h := by
  induction times with
  | nil => intro last h hh; simp [refreshFires] at hh
  | cons now rest ih =>
    intro last h hh
    by_cases hc : last + period ≤ now
    · simp only [refreshFires, if_pos hc, List.head?_cons, Option.some.injEq] at hh
      omega
    · simp only [refreshFires, if_neg hc] at hh
      exact ih last h hh

theorem refreshFires_chain (period : Int) (times : List Int) :
    ∀ last : Int,
    List.Chain' (fun a b => a + period ≤ b) (refreshFires last period times) := by
  induction times with
  | nil => intro last; simp [refreshFires]
  | cons now rest ih =>
    intro last
    by_cases hc : last + period ≤ now
    · simp only [refreshFires, if_pos hc]
      rw [List.chain'_cons']
      exact ⟨fun y hy => refreshFires_head_bound period rest now y hy, ih now⟩
    · simp only [refreshFires, if_neg hc]
      exact ih last

theorem filter_notOpen_length_of_all_fail (ds : List Device)
    (h : ∀ d ∈ ds, d.openOk = false) :
    (ds.filter (fun d => !d.openOk)).length = ds.length := by
  induction ds with
  | nil => rfl
  | cons d rest ih =>
    have hd := h d (by simp)
    have hr : ∀ x ∈ rest, x.openOk = false := fun x hx => h x (by simp [hx])
    simp [List.filter_cons, hd, ih hr]

theorem filter_notOpen_length_of_ex_open (ds : List Device)
    (h : ∃ d ∈ ds, d.openOk = true) :
    (ds.filter (fun d => !d.openOk)).length < ds.length := by
  induction ds with
  | nil => simp at h
  | cons d rest ih =>
    by_cases hd : d.openOk
    · have hle : (rest.filter (fun d => !d.openOk)).length ≤ rest.length :=
        List.length_filter_le _ _
      simp only [List.filter_cons, hd, Bool.not_true, List.length_cons]
      simp only [Bool.false_eq_true, if_false]
      omega
    · obtain ⟨x, hx, hox⟩ := h
      rcases List.mem_cons.mp hx with rfl | hxr
      · exact absurd hox hd
      · have hlt := ih ⟨x, hxr, hox⟩
        have hb : (!d.openOk) = true := by simp [hd]
        simp only [List.filter_cons, hb, if_true, List.length_cons]
        omega

theorem openDevices_getLocal_fatal (ds : List Device) :
    ∀ st : LoopState, (∃ d ∈ ds, d.getLocalOk = false) →
    (openDevices st ds).2 = some FatalError.getifaddrsFailed := by
  induction ds with
  | nil => intro st h; simp at h
  | cons d rest ih =>
    intro st h
    by_cases hd : d.getLocalOk
    · have hrest : ∃ x ∈ rest, x.getLocalOk = false := by
        obtain ⟨x, hx, hox⟩ := h
        rcases List.mem_cons.mp hx with rfl | hxr
        · simp [hd] at hox
        · exact ⟨x, hxr, hox⟩
      by_cases ho : d.openOk <;> by_cases hn : d.setnonblockOk <;>
        by_cases hu : st.useSelect <;> cases hsel : d.selectableFd <;>
        simp [openDevices, openDevicesStep, hd, ho, hn, hu, hsel, ih _ hrest]
    · simp [openDevices, openDevicesStep, hd]

/-! ## Claim theorems -/

/-- Claim C1, counterexample: in fallback mode, with the shutdown pipe
read end (fd 3) readable because a shutdown was triggered, the idle wait
still reports continue, so the pending shutdown is not observed at the
idle wait, contrary to the claim. -/
theorem c1_counterexample :
    ¬ ((wait_for_next_trigger false [] 3 [3] false).ret = false) := by decide

/-- Claim C1 (amended): when the fallback flag is set, each idle wait
sleeps a fixed bounded interval of 1000 microseconds instead of blocking,
and always reports continue; the Shutdown Signal is not polled in this
mode, so a pending shutdown trigger is never observed at an idle wait
while in fallback mode. -/
theorem c1_fallback_sleep_no_poll (fdList : List Int) (selfPipeFst : Int)
    (ready : List Int) (selectErr : Bool) :
    wait_for_next_trigger false fdList selfPipeFst ready selectErr
      = ⟨true, 1000⟩ := rfl

/-- Claim C2, counterexample: an iteration in which the only open session
reports dispatch error -1 does not exit the loop. -/
theorem c2_counterexample :
    (∀ r ∈ [(-1 : Int)], r < 0) ∧
    (loopIteration true [3] 3 1 0 [-1] 5 [] false).breaks = false := by decide

/-- Claim C2 (amended): in an iteration in which every session dispatch
reports an error, one error line per session is logged and the loop does
not exit on that condition: the iteration is treated like any other
unproductive one, the idle wait runs, and the loop breaks only when the
multiplexer observes the shutdown pipe readable. -/
theorem c2_all_error_iteration_continues (useSelect : Bool) (fdList : List Int)
    (selfPipeFst rd last : Int) (retvals : List Int) (now : Int)
    (ready : List Int) (selectErr : Bool)
    (herr : ∀ r ∈ retvals, r < 0) :
    (loopIteration useSelect fdList selfPipeFst rd last retvals now ready
        selectErr).dispatchLogs = retvals.length ∧
    (loopIteration useSelect fdList selfPipeFst rd last retvals now ready
        selectErr).waitCalled = true ∧
    ((loopIteration useSelect fdList selfPipeFst rd last retvals now ready
        selectErr).breaks = true →
      useSelect = true ∧ selectErr = false ∧ selfPipeFst ∈ fdList ∧
        selfPipeFst ∈ ready) := by
  have hpr : retvals.any (fun r => decide (0 < r)) = false := by
    rw [List.any_eq_false]
    intro r hr
    have := herr r hr
    simp only [decide_eq_true_eq]
    omega
  have hfl : retvals.filter (fun r => decide (r < 0)) = retvals := by
    rw [List.filter_eq_self]
    intro r hr
    simpa using herr r hr
  refine ⟨?_, ?_, ?_⟩
  · simp [loopIteration, hpr, hfl]
  · simp [loopIteration, hpr]
  · intro hb
    by_cases hu : useSelect
    · simp only [loopIteration, hpr, Bool.false_eq_true, if_false,
        wait_for_next_trigger, hu, if_true] at hb
      split at hb
      · rename_i hcond
        exact ⟨hu, by simpa using hcond.1, hcond.2.1, hcond.2.2⟩
      · simp at hb
    · simp [loopIteration, hpr, wait_for_next_trigger, hu] at hb

/-- Claim C2 (amended), witness at a concrete iteration. -/
theorem c2_all_error_iteration_continues_witness :
    (loopIteration true [3] 3 1 0 [-1, -2] 5 [] false).dispatchLogs = 2 ∧
    (loopIteration true [3] 3 1 0 [-1, -2] 5 [] false).waitCalled = true :=
  ⟨(c2_all_error_iteration_continues true [3] 3 1 0 [-1, -2] 5 [] false
      (by decide)).1,
   (c2_all_error_iteration_continues true [3] 3 1 0 [-1, -2] 5 [] false
      (by decide)).2.1⟩

/-- Claim C3: fallback is monotonic.  A device that opens successfully but
yields no selectable fd clears the select flag and empties the fd
registry; and from any state in which the select flag is off, the
remainder of the device loop leaves the flag off and never registers
another fd, whatever the capabilities of the later devices. -/
theorem c3_fallback_monotonic :
    (∀ (st : LoopState) (d : Device), st.useSelect = true →
        d.getLocalOk = true → d.openOk = true → d.selectableFd = none →
        (openDevicesStep st d).1.useSelect = false ∧
        (openDevicesStep st d).1.fdList = []) ∧
    (∀ (st : LoopState) (ds : List Device), st.useSelect = false →
        (openDevices st ds).1.useSelect = false ∧
        (openDevices st ds).1.fdList = st.fdList) := by
  constructor
  · intro st d hu hg ho hsel
    by_cases hn : d.setnonblockOk <;> simp [openDevicesStep, hg, ho, hn, hu, hsel]
  · intro st ds h
    exact openDevices_of_useSelect_false st ds h

/-- Claim C3, witness on concrete states and devices. -/
theorem c3_fallback_monotonic_witness :
    (openDevicesStep ⟨0, 0, [], true, [0], [], []⟩
        ⟨"eth0", true, true, none, true⟩).1.useSelect = false ∧
    (openDevices ⟨1, 0, ["eth0"], false, [], ["eth0"], []⟩
        [⟨"eth1", true, true, some 7, true⟩]).1.fdList = [] :=
  ⟨(c3_fallback_monotonic.1 _ _ rfl rfl rfl rfl).1,
   (c3_fallback_monotonic.2 _ _ rfl).2⟩

/-- Claim C4: when the trigger end of the shutdown channel is valid, the
signal handler performs exactly the single write of the sentinel byte x
of length one to that end; when the channel does not exist, it
terminates the process immediately. -/
theorem c4_quit_cb_behavior (fd : Int) :
    (fd ≠ -1 → quit_cb fd = QuitAction.writeByte fd 'x' 1) ∧
    (fd = -1 → quit_cb fd = QuitAction.exitProcess 0) := by
  constructor
  · intro h; simp [quit_cb, h]
  · intro h; simp [quit_cb, h]

/-- Claim C4, witness at a valid and at an invalid trigger end. -/
theorem c4_quit_cb_witness :
    quit_cb 5 = QuitAction.writeByte 5 'x' 1 ∧
    quit_cb (-1) = QuitAction.exitProcess 0 :=
  ⟨(c4_quit_cb_behavior 5).1 (by decide), (c4_quit_cb_behavior (-1)).2 rfl⟩

/-- Claim C5: whenever the elapsed time since the last refresh is at
least the period, the refresh fires and the last-fired time advances to
now; when less, nothing fires and the timestamp is kept; and over any
sequence of clock observations, consecutive firing times are always at
least one period apart, so the cadence self-corrects and never
compounds. -/
theorem c5_refresh_cadence :
    (∀ last period now : Int, last + period ≤ now →
        refreshStep last period now = (true, now)) ∧
    (∀ last period now : Int, now < last + period →
        refreshStep last period now = (false, last)) ∧
    (∀ (last period : Int) (times : List Int),
        List.Chain' (fun a b => a + period ≤ b)
          (refreshFires last period times)) := by
  refine ⟨?_, ?_, ?_⟩
  · intro l p n h; simp [refreshStep, h]
  · intro l p n h
    simp only [refreshStep]
    rw [if_neg (by omega)]
  · intro l p ts
    exact refreshFires_chain p ts l

/-- Claim C5, witness: a stalled clock fires exactly once on resumption
and the following fire is a full period later. -/
theorem c5_refresh_cadence_witness :
    refreshStep 0 2 9 = (true, 9) ∧ refreshStep 9 2 10 = (false, 9) ∧
    List.Chain' (fun a b => a + 2 ≤ b) (refreshFires 0 2 [9, 10, 11, 12]) :=
  ⟨c5_refresh_cadence.1 0 2 9 (by decide), c5_refresh_cadence.2.1 9 2 10 (by decide),
   c5_refresh_cadence.2.2 0 2 [9, 10, 11, 12]⟩

/-- Claim C6: with local-IP lookup succeeding on every device, if every
requested device fails to open its capture session then startup ends in
the all-devices-failed fatal error with a non-zero exit code before the
reactor loop; if at least one device opens, startup succeeds, the
ownership chain holds exactly the successfully opened devices, and the
log carries exactly one skip notice per failed device. -/
theorem c6_startup_device_outcomes (c : Config) (ds : List Device)
    (hne : ds ≠ []) (hl : ∀ d ∈ ds, d.getLocalOk = true)
    (hpriv : privilegeCheck c = none) (hpipe : c.pipeOk = true) :
    ((∀ d ∈ ds, d.openOk = false) →
        (mainStartup c ds).2 = some FatalError.allDevicesFailed ∧
        fatalExitCode ≠ 0) ∧
    ((∃ d ∈ ds, d.openOk = true) →
        (mainStartup c ds).2 = none ∧
        (mainStartup c ds).1.handles = (openedNames ds).reverse ∧
        openFailLogs (mainStartup c ds).1.logs = failedNames ds) := by
  have hdse : ds.isEmpty = false := by
    cases ds with
    | nil => exact absurd rfl hne
    | cons d rest => rfl
  rcases hq : openDevices (initLoopState c.pipeReadFd) ds with ⟨st, e⟩
  have hnone : e = none := by
    have h0 := openDevices_no_fatal ds (initLoopState c.pipeReadFd) hl
    rw [hq] at h0
    exact h0
  subst hnone
  have hnb : st.nbDevices = 0 + ds.length := by
    have h0 := openDevices_nbDevices ds (initLoopState c.pipeReadFd) hl
    rw [hq] at h0
    exact h0
  have hnf : st.nbFailed = 0 + (ds.filter (fun d => !d.openOk)).length := by
    have h0 := openDevices_nbFailed ds (initLoopState c.pipeReadFd) hl
    rw [hq] at h0
    exact h0
  constructor
  · intro hall
    have hlen := filter_notOpen_length_of_all_fail ds hall
    have hcond : st.nbDevices = st.nbFailed := by omega
    refine ⟨?_, by decide⟩
    simp [mainStartup, hdse, hpriv, hpipe, hq, hcond]
  · intro hex
    have hlen := filter_notOpen_length_of_ex_open ds hex
    have hcond : ¬ (st.nbDevices = st.nbFailed) := by omega
    have hh : st.handles = (openedNames ds).reverse ++ [] := by
      have h0 := openDevices_handles ds (initLoopState c.pipeReadFd) hl
      rw [hq] at h0
      exact h0
    have hlg : openFailLogs st.logs = [] ++ failedNames ds := by
      have h0 := openDevices_openFailLogs ds (initLoopState c.pipeReadFd) hl
      rw [hq] at h0
      exact h0
    refine ⟨?_, ?_, ?_⟩ <;>
      simp [mainStartup, hdse, hpriv, hpipe, hq, hcond] <;>
      simp [hh, hlg]

/-- Claim C6, witness: of three devices, two open and one fails; startup
succeeds with the two in the chain and exactly one skip notice. -/
theorem c6_startup_device_outcomes_witness :
    (mainStartup ⟨0, true, 0, true, 3⟩
        [⟨"eth0", true, true, some 4, true⟩, ⟨"eth1", true, false, none, true⟩,
         ⟨"eth2", true, true, some 5, true⟩]).2 = none ∧
    (mainStartup ⟨0, true, 0, true, 3⟩
        [⟨"eth0", true, true, some 4, true⟩, ⟨"eth1", true, false, none, true⟩,
         ⟨"eth2", true, true, some 5, true⟩]).1.handles = ["eth2", "eth0"] ∧
    openFailLogs (mainStartup ⟨0, true, 0, true, 3⟩
        [⟨"eth0", true, true, some 4, true⟩, ⟨"eth1", true, false, none, true⟩,
         ⟨"eth2", true, true, some 5, true⟩]).1.logs = ["eth1"] := by
  have h := (c6_startup_device_outcomes ⟨0, true, 0, true, 3⟩
      [⟨"eth0", true, true, some 4, true⟩, ⟨"eth1", true, false, none, true⟩,
       ⟨"eth2", true, true, some 5, true⟩]
      (by decide) (by decide) rfl rfl).2
      ⟨⟨"eth0", true, true, some 4, true⟩, by decide, rfl⟩
  refine ⟨h.1, ?_, ?_⟩
  · rw [h.2.1]; rfl
  · rw [h.2.2]; rfl

/-- Claim C7: whenever the Privilege Guard check fails, startup ends in a
fatal error and no dp_open_live call is ever attempted on any device. -/
theorem c7_privilege_gate (c : Config) (ds : List Device) (e : FatalError)
    (h : privilegeCheck c = some e) :
    (mainStartup c ds).1.attempts = [] ∧ (mainStartup c ds).2 ≠ none := by
  by_cases hds : ds.isEmpty
  · simp [mainStartup, hds, emptyLoopState]
  · simp only [mainStartup, hds, if_false, h]
    exact ⟨rfl, by simp⟩

/-- Claim C7, witness: a non-root process without the capability bits is
stopped before any capture attempt. -/
theorem c7_privilege_gate_witness :
    (mainStartup ⟨1000, true, 0, true, 3⟩
        [⟨"eth0", true, true, some 4, true⟩]).1.attempts = [] ∧
    (mainStartup ⟨1000, true, 0, true, 3⟩
        [⟨"eth0", true, true, some 4, true⟩]).2 ≠ none :=
  c7_privilege_gate _ _ FatalError.capsMissing (by decide)

/-- Claim C8, counterexample: with one session (eth0) in the ownership
chain, teardown emits no release action for it, contrary to the claim
that every capture session in the chain is released. -/
theorem c8_counterexample :
    CleanupEvent.releaseSession "eth0" ∉ clean_up [3] ["eth0"] false false := by
  decide

/-- Claim C8 (amended): teardown closes every handle registered in the
fd registry, notifies the attribution collaborator exactly once, and
tears down the UI exactly when the process is in neither trace nor debug
mode; it releases no capture session of the ownership chain. -/
theorem c8_cleanup_actions (fdList : List Int) (handles : List String)
    (tracemode debug : Bool) :
    (∀ fd ∈ fdList,
        CleanupEvent.closeFd fd ∈ clean_up fdList handles tracemode debug) ∧
    (clean_up fdList handles tracemode debug).count CleanupEvent.procclean = 1 ∧
    (CleanupEvent.exitUi ∈ clean_up fdList handles tracemode debug ↔
        (tracemode = false ∧ debug = false)) ∧
    (∀ n, CleanupEvent.releaseSession n ∉ clean_up fdList handles tracemode debug) := by
  have hcnt : (fdList.map CleanupEvent.closeFd).count CleanupEvent.procclean = 0 := by
    rw [List.count_eq_zero]
    simp
  refine ⟨?_, ?_, ?_, ?_⟩
  · intro fd hfd
    simp only [clean_up, List.mem_append, List.mem_map]
    exact Or.inl (Or.inl ⟨fd, hfd, rfl⟩)
  · by_cases ht : tracemode <;> by_cases hd : debug <;>
      simp [clean_up, List.count_append, hcnt, ht, hd]
  · by_cases ht : tracemode <;> by_cases hd : debug <;> simp [clean_up, ht, hd]
  · intro n
    by_cases ht : tracemode <;> by_cases hd : debug <;> simp [clean_up, ht, hd]

/-- Claim C8 (amended), witness on a concrete registry and chain. -/
theorem c8_cleanup_actions_witness :
    CleanupEvent.closeFd 3 ∈ clean_up [3] ["eth0"] false false ∧
    (clean_up [3] ["eth0"] false false).count CleanupEvent.procclean = 1 ∧
    CleanupEvent.exitUi ∈ clean_up [3] ["eth0"] false false ∧
    CleanupEvent.releaseSession "wlan0" ∉ clean_up [3] ["eth0"] false false :=
  ⟨(c8_cleanup_actions [3] ["eth0"] false false).1 3 (by decide),
   (c8_cleanup_actions [3] ["eth0"] false false).2.1,
   (c8_cleanup_actions [3] ["eth0"] false false).2.2.1.mpr ⟨rfl, rfl⟩,
   (c8_cleanup_actions [3] ["eth0"] false false).2.2.2 "wlan0"⟩

/-- Claim C9: in any iteration in which some session dispatched at least
one packet, the idle wait is not entered, so a pending shutdown trigger
is not observed and the loop proceeds to the next iteration. -/
theorem c9_productive_iteration_skips_wait (useSelect : Bool)
    (fdList : List Int) (selfPipeFst rd last : Int) (retvals : List Int)
    (now : Int) (ready : List Int) (selectErr : Bool)
    (h : ∃ r ∈ retvals, 0 < r) :
    (loopIteration useSelect fdList selfPipeFst rd last retvals now ready
        selectErr).waitCalled = false ∧
    (loopIteration useSelect fdList selfPipeFst rd last retvals now ready
        selectErr).breaks = false := by
  have hpr : retvals.any (fun r => decide (0 < r)) = true := by
    obtain ⟨r, hr, h0⟩ := h
    exact List.any_eq_true.mpr ⟨r, hr, by simpa using h0⟩
  simp [loopIteration, hpr]

/-- Claim C9, witness: one packet dispatched while the shutdown pipe
(fd 3) is already readable; the trigger is still not observed. -/
theorem c9_productive_iteration_skips_wait_witness :
    (loopIteration true [3] 3 1 0 [2] 5 [3] false).waitCalled = false ∧
    (loopIteration true [3] 3 1 0 [2] 5 [3] false).breaks = false :=
  c9_productive_iteration_skips_wait true [3] 3 1 0 [2] 5 [3] false
    ⟨2, by decide, by decide⟩

/-- Claim C10: a failing local-IP lookup on any device aborts the whole
device-opening loop with the fatal getifaddrs error and its non-zero
exit, while a capture-open failure on a device with a successful lookup
is a soft skip that increments the failure counter and continues. -/
theorem c10_getlocal_fatal :
    (∀ (st : LoopState) (ds : List Device), (∃ d ∈ ds, d.getLocalOk = false) →
        (openDevices st ds).2 = some FatalError.getifaddrsFailed ∧
        fatalExitCode ≠ 0) ∧
    (∀ (st : LoopState) (d : Device), d.getLocalOk = true → d.openOk = false →
        (openDevicesStep st d).2 = none ∧
        (openDevicesStep st d).1.nbFailed = st.nbFailed + 1) := by
  constructor
  · intro st ds h
    exact ⟨openDevices_getLocal_fatal ds st h, by decide⟩
  · intro st d hg ho
    simp [openDevicesStep, hg, ho]

/-- Claim C10, witness: one device with failing lookup is fatal; one
device with failing open is a counted soft skip. -/
theorem c10_getlocal_fatal_witness :
    (openDevices emptyLoopState [⟨"eth0", false, true, some 4, true⟩]).2
        = some FatalError.getifaddrsFailed ∧
    (openDevicesStep emptyLoopState ⟨"eth1", true, false, none, true⟩).2 = none :=
  ⟨(c10_getlocal_fatal.1 emptyLoopState [⟨"eth0", false, true, some 4, true⟩]
      ⟨⟨"eth0", false, true, some 4, true⟩, List.mem_cons_self _ _, rfl⟩).1,
   (c10_getlocal_fatal.2 emptyLoopState ⟨"eth1", true, false, none, true⟩ rfl rfl).1⟩

end Nethogs
